import Mathlib

/-!
Verification of the content-free governance audit core of the z1-api
repository (src/app.py and src/logger.py) against its natural-language
specification.

The Python code is shallowly embedded: JSON-like runtime values become the

inductive type JValue (dicts are insertion-ordered association lists, as
Python dicts are insertion ordered), Python string operations become
executable char-level Lean functions, and every translated function keeps
the name and the control-flow shape of its Python source.
-/

/-- JSON-like Python runtime value: None, bool, int, float, str, list, dict.
Floats are modelled as rationals (no claim under scrutiny depends on binary
float rounding, NaN or infinity). Dict keys are strings, in insertion
order. -/
inductive JValue where
  | null
  | bool (b : Bool)
  | int (n : Int)
  | float (q : ℚ)
  | str (s : String)
  | list (xs : List JValue)
  | dict (kvs : List (String × JValue))

/-- Python whitespace test used by str.strip (space, tab, newline, carriage
return, vertical tab, form feed). -/
def pyIsSpace (c : Char) : Bool :=
  c = ' ' || c = '\t' || c = '\n' || c = '\r' || c = '\x0b' || c = '\x0c'

/-- Python str.strip(): remove leading and trailing whitespace. -/
def pyStrip (s : String) : String :=
  String.mk (((s.data.dropWhile pyIsSpace).reverse.dropWhile pyIsSpace).reverse)

/-- Python str.lower(), on the ASCII range (all keys and needles in this
development are ASCII). -/
def pyLower (s : String) : String := String.mk (s.data.map Char.toLower)

/-- The composite k.strip().lower() normalisation applied to dict keys in
scrub_no_content_derived. -/
def lowerStrip (s : String) : String := pyLower (pyStrip s)

/-- Python substring test on char lists: needle occurs contiguously in hay. -/
def listHasSub (hay needle : List Char) : Bool :=
  needle.isPrefixOf hay ||
    (match hay with
     | [] => false
     | _ :: t => listHasSub t needle)

/-- Python expression needle in hay for strings. -/
def pyIn (needle hay : String) : Bool := listHasSub hay.data needle.data

/-- CONTENT_DERIVED_KEYS_LOWER from src/app.py lines 240-252, in source
order: the exact lower-cased key set removed by the scrubber. -/
def CONTENT_DERIVED_KEYS_LOWER : List String :=
  ["matched", "matches", "match", "keywords", "keyword", "tokens", "token",
   "spans", "span", "entities", "entity", "phrases", "phrase",
   "matched_keywords", "detected_keywords", "oos_matched", "trigger_words",
   "trigger_word", "trigger", "triggers",
   "prompt", "messages", "completion", "response_text", "raw", "raw_text",
   "text", "input_text", "original", "normalized", "repaired_text",
   "raw_ai_output", "llm_raw_response", "llm_raw_output"]

mutual

/-- scrub_no_content_derived from src/app.py lines 254-272: recursively
drops every dict entry whose stripped lower-cased key is in
CONTENT_DERIVED_KEYS_LOWER, rebuilds lists element-wise, and passes
scalars through unchanged. -/
def scrub_no_content_derived : JValue → JValue
  | .dict kvs => .dict (scrubEntries kvs)
  | .list xs => .list (scrubList xs)
  | v => v

/-- The for-loop over obj.items() inside scrub_no_content_derived. -/
def scrubEntries : List (String × JValue) → List (String × JValue)
  | [] => []
  | (k, v) :: rest =>
    if CONTENT_DERIVED_KEYS_LOWER.contains (lowerStrip k) then scrubEntries rest
    else (k, scrub_no_content_derived v) :: scrubEntries rest

/-- The list comprehension inside scrub_no_content_derived. -/
def scrubList : List JValue → List JValue
  | [] => []
  | x :: xs => scrub_no_content_derived x :: scrubList xs

end

mutual

/-- Detector used to state the scrub privacy property: does any dict at any
nesting depth contain a key whose stripped lower-cased form is in
CONTENT_DERIVED_KEYS_LOWER? -/
def hasScrubTargetKey : JValue → Bool
  | .dict kvs => hasScrubTargetKeyEntries kvs
  | .list xs => hasScrubTargetKeyList xs
  | _ => false

def hasScrubTargetKeyEntries : List (String × JValue) → Bool
  | [] => false
  | (k, v) :: rest =>
    CONTENT_DERIVED_KEYS_LOWER.contains (lowerStrip k) || hasScrubTargetKey v
      || hasScrubTargetKeyEntries rest

def hasScrubTargetKeyList : List JValue → Bool
  | [] => false
  | x :: xs => hasScrubTargetKey x || hasScrubTargetKeyList xs

end

/-- First-match dict lookup, the Python d.get(k) restricted to a dict value
given as its entry list. -/
def jGetEntries (kvs : List (String × JValue)) (k : String) : Option JValue :=
  (kvs.find? (fun kv => kv.1 == k)).map (fun kv => kv.2)

/-- Python k in d key test on a dict entry list. -/
def jHasKey (kvs : List (String × JValue)) (k : String) : Bool :=
  kvs.any (fun kv => kv.1 == k)

/-- Python d.get(k, default) where the receiver may be any value; a non-dict
receiver yields the default (the Python source only applies .get to values
that are dicts on every evaluated path). -/
def jGetD (v : JValue) (k : String) (default : JValue) : JValue :=
  match v with
  | .dict kvs => (jGetEntries kvs k).getD default
  | _ => default

/-- The str(v) builtin, simplified: container and float rendering is
abbreviated (no analysed claim depends on the rendered text of a non-string
value, only on the result being a string). -/
def pyStr : JValue → String
  | .null => "None"
  | .bool b => if b then "True" else "False"
  | .int n => toString n
  | .float q => toString q
  | .str s => s
  | .list _ => "[...]"
  | .dict _ => "\x7b...\x7d"

/-- The _safe_str helper from src/app.py lines 134-140: None maps to the
default, anything else stringifies. -/
def _safe_str (v : JValue) (default : String) : String :=
  match v with
  | .null => default
  | v => pyStr v

/-- The _decision_from_mode helper from src/app.py lines 143-149. The
claims quantify over string modes, so the argument is a string and the
enclosing _safe_str is the identity. -/
def _decision_from_mode (mode : String) : String :=
  let m := lowerStrip mode
  if m = "no-op" then "ALLOW"
  else if m = "block" then "BLOCK"
  else "GUIDE"

/-- The _decision_state_from_truth normalizer from src/app.py lines
152-159. -/
def _decision_state_from_truth (mode freq_type scenario : String) : String :=
  if freq_type = "OutOfScope" then "BLOCK"
  else
    let sc := lowerStrip scenario
    if pyIn "out_of_scope" sc || pyIn "crisis" sc then "BLOCK"
    else _decision_from_mode mode

/-- One observation cycle of _license_watchdog_loop from src/app.py lines
223-234: given the enforcement mode, the current halt flag and the validity
the refreshed status reports, return the new halt flag. Invalid status in
stop mode sets the flag; no branch ever clears it. -/
def _license_watchdog_step (enforcement_mode : String) (halted valid : Bool) :
    Bool :=
  if !valid then
    (if enforcement_mode = "stop" then true else halted)
  else halted

/-- Iterated watchdog cycles over a sequence of observed validity values. -/
def run_watchdog (enforcement_mode : String) (halted : Bool)
    (observations : List Bool) : Bool :=
  observations.foldl (_license_watchdog_step enforcement_mode) halted

/-- The license admission gate at the top of analyze, src/app.py lines
694-699: given the halt flag and the validity and reason of the freshly
refreshed status, the request is rejected with 503 when halted, rejected
with 402 when the status is invalid, and admitted to the pipeline (the
decision engine) only otherwise. The result is none when the request
proceeds, and some (status, detail) for a rejection. -/
def analyze_license_gate (halted valid : Bool) (reason : String) :
    Option (Nat × String) :=
  if halted then some (503, "service_halted_by_license:" ++ reason)
  else if !valid then some (402, "license_invalid:" ++ reason)
  else none

/-- One insertion step of an insertion sort: the model of Python sorted()
for integer lists (stable ascending order; on integers stability is
vacuous). -/
def insertSorted (x : Int) : List Int → List Int
  | [] => [x]
  | y :: ys => if x ≤ y then x :: y :: ys else y :: insertSorted x ys

/-- Python sorted(values) for a list of ints, as used by _percentile. -/
def pySorted (l : List Int) : List Int := l.foldr insertSorted []

/-- The _percentile helper from src/app.py lines 162-177. Latency samples
are ints, p and the result are modelled as rationals (the Python float
arithmetic is exact on every quantity involved here). In the interior
branch k is nonnegative, so the Python int(k) truncation equals the floor
that the f variable already holds. -/
def _percentile (values : List Int) (p : ℚ) : Option ℚ :=
  match values with
  | [] => none
  | v :: vs =>
    if p ≤ 0 then some ((vs.foldl min v : Int) : ℚ)
    else if 100 ≤ p then some ((vs.foldl max v : Int) : ℚ)
    else
      let sv := pySorted (v :: vs)
      let k : ℚ := ((sv.length : ℚ) - 1) * (p / 100)
      let f : ℤ := ⌊k⌋
      let c : ℤ := ⌈k⌉
      if f = c then some ((sv.getD f.toNat 0 : Int) : ℚ)
      else some (((sv.getD f.toNat 0 : Int) : ℚ) * ((c : ℚ) - k)
        + ((sv.getD c.toNat 0 : Int) : ℚ) * (k - (f : ℚ)))

/-- The fractional order-statistic index (n - 1) * p / 100 used by
_percentile. -/
def percentileIndex (l : List Int) (p : ℚ) : ℚ := ((l.length : ℚ) - 1) * (p / 100)

/-- Linear interpolation between the two order statistics bounding the
fractional index k in a sorted sample, the textbook reading of the spec
sentence about the interior percentile case. -/
def interpAt (sv : List Int) (k : ℚ) : ℚ :=
  ((sv.getD ⌊k⌋.toNat 0 : Int) : ℚ)
    + (k - (⌊k⌋ : ℚ)) * (((sv.getD ⌈k⌉.toNat 0 : Int) : ℚ) - ((sv.getD ⌊k⌋.toNat 0 : Int) : ℚ))

def EVIDENCE_REQUIRED_TOP_KEYS : List String :=
  ["schema_version", "input_fp_sha256", "input_length", "output_fp_sha256",
   "output_length", "freq_type", "mode", "scenario", "confidence", "metrics",
   "audit", "llm_used", "cache_hit", "model", "usage", "output_source",
   "api_version", "pipeline_version_fingerprint"]

def EVIDENCE_REQUIRED_CONFIDENCE_KEYS : List String := ["final", "classifier"]

def isInstDict : JValue → Bool
  | .dict _ => true
  | _ => false

def isInstInt : JValue → Bool
  | .int _ => true
  | .bool _ => true
  | _ => false

def isInstBool : JValue → Bool
  | .bool _ => true
  | _ => false

def isNull : JValue → Bool
  | .null => true
  | _ => false

def validate_evidence_v1 (e : JValue) : Bool × List String :=
  match e with
  | .dict kvs =>
    let missTop := (EVIDENCE_REQUIRED_TOP_KEYS.filter
      (fun k => !(jHasKey kvs k))).map (fun k => "missing:" ++ k)
    let confErrs :=
      match (jGetEntries kvs "confidence").getD .null with
      | .dict conf => (EVIDENCE_REQUIRED_CONFIDENCE_KEYS.filter
          (fun ck => !(jHasKey conf ck))).map (fun ck => "missing:confidence." ++ ck)
      | _ => ["confidence_not_dict"]
    let typeErrs :=
      (if jHasKey kvs "input_length"
          && !(isInstInt ((jGetEntries kvs "input_length").getD .null))
        then ["type:input_length_not_int"] else [])
      ++ (if jHasKey kvs "output_length"
          && !(isInstInt ((jGetEntries kvs "output_length").getD .null))
        then ["type:output_length_not_int"] else [])
      ++ (if jHasKey kvs "llm_used"
          && !(isNull ((jGetEntries kvs "llm_used").getD .null))
          && !(isInstBool ((jGetEntries kvs "llm_used").getD .null))
        then ["type:llm_used_not_bool_or_none"] else [])
      ++ (if jHasKey kvs "cache_hit"
          && !(isNull ((jGetEntries kvs "cache_hit").getD .null))
          && !(isInstBool ((jGetEntries kvs "cache_hit").getD .null))
        then ["type:cache_hit_not_bool_or_none"] else [])
      ++ (if jHasKey kvs "usage"
          && !(isInstDict ((jGetEntries kvs "usage").getD .null))
        then ["type:usage_not_dict"] else [])
      ++ (if jHasKey kvs "audit"
          && !(isInstDict ((jGetEntries kvs "audit").getD .null))
        then ["type:audit_not_dict"] else [])
      ++ (if jHasKey kvs "metrics"
          && !(isInstDict ((jGetEntries kvs "metrics").getD .null))
        then ["type:metrics_not_dict"] else [])
    let errors := missTop ++ confErrs ++ typeErrs
    (errors.isEmpty, errors)
  | _ => (false, ["evidence_not_dict"])

def APP_VERSION : String := "2.2.4-hf"

def _sha256_hex (s : String) : String :=
  toString (s.data.foldl (fun a c => (a * 131 + c.toNat) % 18446744073709551616) 5381)

def _safe_conf (v : JValue) (default : ℚ) : ℚ :=
  match v with
  | .int n => max 0 (min 1 (n : ℚ))
  | .float q => max 0 (min 1 q)
  | .bool b => max 0 (min 1 (if b then (1 : ℚ) else 0))
  | _ => default

def jOfOptBool : Option Bool → JValue
  | none => .null
  | some b => .bool b

def asDictJ (v : JValue) : JValue :=
  match v with
  | .dict _ => v
  | _ => .dict []

def build_evidence_entries (req_text : String)
    (repaired_text freq_type mode scenario : JValue)
    (confidence_final confidence_classifier : JValue)
    (metrics audit_top : JValue) (llm_used cache_hit : Option Bool)
    (model_name usage output_source pipeline_version_fingerprint : JValue) :
    List (String × JValue) :=
  let inp_fp := _sha256_hex req_text
  let out_text :=
    match repaired_text with
    | .str s => s
    | .null => ""
    | v => pyStr v
  let out_fp := _sha256_hex out_text
  let audit_safe := scrub_no_content_derived (asDictJ audit_top)
  let metrics_safe := scrub_no_content_derived (asDictJ metrics)
  [("schema_version", .str "1.0"),
   ("input_fp_sha256", .str inp_fp),
   ("input_length", .int (req_text.length : Int)),
   ("output_fp_sha256", .str out_fp),
   ("output_length", .int (out_text.length : Int)),
   ("freq_type", .str (_safe_str freq_type "Unknown")),
   ("mode", .str (_safe_str mode "no-op")),
   ("scenario", .str (_safe_str scenario "unknown")),
   ("confidence", .dict [("final", .float (_safe_conf confidence_final 0)),
     ("classifier", .float (_safe_conf confidence_classifier 0))]),
   ("metrics", asDictJ metrics_safe),
   ("audit", asDictJ audit_safe),
   ("llm_used", jOfOptBool llm_used),
   ("cache_hit", jOfOptBool cache_hit),
   ("model", .str (_safe_str model_name "")),
   ("usage", asDictJ usage),
   ("output_source", output_source),
   ("api_version", .str APP_VERSION),
   ("pipeline_version_fingerprint", .str (_safe_str pipeline_version_fingerprint ""))]

def finalize_evidence (evidence : List (String × JValue)) : JValue :=
  let r := validate_evidence_v1 (.dict evidence)
  if r.1 then .dict (evidence ++ [("schema_valid", .bool true)])
  else .dict (evidence ++ [("schema_valid", .bool false),
    ("schema_errors", .list (r.2.map JValue.str))])

def build_evidence_v1 (req_text : String)
    (repaired_text freq_type mode scenario : JValue)
    (confidence_final confidence_classifier : JValue)
    (metrics audit_top : JValue) (llm_used cache_hit : Option Bool)
    (model_name usage output_source pipeline_version_fingerprint : JValue) :
    JValue :=
  finalize_evidence (build_evidence_entries req_text repaired_text freq_type
    mode scenario confidence_final confidence_classifier metrics audit_top
    llm_used cache_hit model_name usage output_source
    pipeline_version_fingerprint)

/-- Python d.get(k) on a JValue that should be a dict. -/
def jGet (v : JValue) (k : String) : Option JValue :=
  match v with
  | .dict kvs => jGetEntries kvs k
  | _ => none

/-- Python k in d on a JValue that should be a dict. -/
def jHasKeyJ (v : JValue) (k : String) : Bool :=
  match v with
  | .dict kvs => jHasKey kvs k
  | _ => false

/-- Python d.get(k, default) on dict entries, returning the stored value or
the default. -/
def jGetEntriesD (kvs : List (String × JValue)) (k : String) (default : JValue) :
    JValue :=
  (jGetEntries kvs k).getD default

/-- Python x or {} for an Optional[Dict] argument: None becomes the empty
dict, a dict passes through (the parameter is typed Optional[Dict], so the
falsiness of other types is not exercised). -/
def orEmptyDict (v : JValue) : JValue :=
  match v with
  | .null => .dict []
  | v => v

/-- Worker for the non-overlapping substring count: count occurrences of
the nonempty needle n0 :: ns in hay, restarting past each match, as the
Python str.count method does. -/
def listCountSubAux (hay : List Char) (n0 : Char) (ns : List Char) : Nat :=
  if (n0 :: ns).isPrefixOf hay then
    1 + listCountSubAux (hay.drop (n0 :: ns).length) n0 ns
  else
    match hay with
    | [] => 0
    | _ :: t => listCountSubAux t n0 ns
termination_by hay.length
decreasing_by
  · rename_i hp
    cases hay with
    | nil => simp [List.isPrefixOf] at hp
    | cons hh ht =>
      simp only [List.length_drop, List.length_cons]
      omega
  · simp

/-- Non-overlapping substring count on char lists (an empty needle is never
passed by the logger code; Python would answer len + 1 there). -/
def listCountSub (hay needle : List Char) : Nat :=
  match needle with
  | [] => 0
  | n0 :: ns => listCountSubAux hay n0 ns

/-- Python hay.count(needle) for strings. -/
def pyCount (hay needle : String) : Nat := listCountSub hay.data needle.data

/-- Python text.split() with no separator: split on whitespace runs,
discarding empty fields. -/
def pySplitWS (s : String) : List String :=
  (s.split (fun c => pyIsSpace c)).filter (fun w => w ≠ "")

/-- Python w.isupper() on the ASCII range: at least one letter and no
lower-case letter. -/
def pyIsUpper (w : String) : Bool :=
  w.data.any (fun c => c.isAlpha) && w.data.all (fun c => !(c.isLower))

/-- The _detect_language helper from src/logger.py lines 205-213: CJK
codepoint-range tests, defaulting to en. -/
def _detect_language (text : String) : String :=
  if text.data.any (fun c => 0x4e00 ≤ c.toNat && c.toNat ≤ 0x9fff) then "zh"
  else if text.data.any (fun c => 0x3040 ≤ c.toNat && c.toNat ≤ 0x30ff) then "ja"
  else if text.data.any (fun c => 0xac00 ≤ c.toNat && c.toNat ≤ 0xd7af) then "ko"
  else "en"

/-- The _extract_confidence helper from src/logger.py lines 109-118. -/
def _extract_confidence (output_result : JValue) : JValue :=
  let conf_data := jGetD output_result "confidence" (.dict [])
  let debug_info := jGetD conf_data "debug" (.dict [])
  .dict [("initial", jGetD debug_info "base_confidence"
            (jGetD conf_data "base_confidence" (.int 0))),
         ("adjusted", jGetD debug_info "final_confidence"
            (jGetD conf_data "final_confidence" (.int 0))),
         ("final", jGetD conf_data "final_confidence"
            (jGetD conf_data "final" (.int 0)))]

/-- Numeric read of a JValue, used where the Python code feeds a value from
the verdict into an arithmetic comparison (a non-numeric value would raise
in Python; the analysed inputs are numeric or absent). -/
def jNum (v : JValue) (default : ℚ) : ℚ :=
  match v with
  | .int n => (n : ℚ)
  | .float q => q
  | _ => default

/-- The _categorize_rhythm helper from src/logger.py lines 135-147 (the
float literals 0.33 and 0.67 are exact in the rational model). -/
def _categorize_rhythm (speed_index : ℚ) : JValue :=
  if speed_index < 33 / 100 then
    .dict [("fast", .int 0), ("medium", .int 0), ("slow", .int 100)]
  else if speed_index < 67 / 100 then
    .dict [("fast", .int 0), ("medium", .int 100), ("slow", .int 0)]
  else
    .dict [("fast", .int 100), ("medium", .int 0), ("slow", .int 0)]

/-- The _extract_rhythm helper from src/logger.py lines 120-133. -/
def _extract_rhythm (output_result : JValue) : JValue :=
  let rhythm := jGetD output_result "rhythm" (.dict [])
  let details := _categorize_rhythm (jNum (jGetD rhythm "speed_index" (.float (1/2))) (1/2))
  .dict [("total", jGetD rhythm "total" (.int 0)),
         ("speed_index", jGetD rhythm "speed_index" (.int 0)),
         ("emotion_rate", jGetD rhythm "emotion_rate" (.int 0)),
         ("pause_density", jGetD rhythm "pause_density" (.int 0)),
         ("details", details)]

/-- The markers_map dictionary inside _extract_tone_markers, src/logger.py
lines 165-171, as a lookup with default []. -/
def markers_map (tone : JValue) : List String :=
  match tone with
  | .str "Sharp" => ["快點", "馬上", "立刻", "趕快", "hurry", "immediately", "asap"]
  | .str "Cold" => ["嗯", "好", "隨便", "ok", "whatever", "fine"]
  | .str "Blur" => ["可能", "大概", "應該", "maybe", "probably", "sort of"]
  | .str "Pushy" => ["一定要", "必須", "得", "must", "have to"]
  | .str "Anxious" => ["怎麼辦", "不知道", "害怕", "help", "worried", "confused"]
  | _ => []

/-- The _extract_tone_markers helper from src/logger.py lines 163-178. -/
def _extract_tone_markers (tone : JValue) (text : String) : JValue :=
  .list (((markers_map tone).filter
    (fun marker => pyIn (pyLower marker) (pyLower text))).map JValue.str)

/-- The _extract_intensity_words helper from src/logger.py lines 180-192. -/
def _extract_intensity_words (text : String) : JValue :=
  .list (((["非常", "真的", "太", "好想", "受不了", "絕望",
            "very", "really", "so", "extremely", "absolutely"] : List String).filter
    (fun word => pyIn (pyLower word) (pyLower text))).map JValue.str)

/-- The _extract_linguistic_features helper from src/logger.py lines
194-203. -/
def _extract_linguistic_features (text : String) : JValue :=
  .dict [("exclamations", .int ((pyCount text "!" + pyCount text "！" : Nat) : Int)),
         ("questions", .int ((pyCount text "?" + pyCount text "？" : Nat) : Int)),
         ("ellipsis", .int ((pyCount text "..." + pyCount text "…" : Nat) : Int)),
         ("commas", .int ((pyCount text "," + pyCount text "，" : Nat) : Int)),
         ("periods", .int ((pyCount text "." + pyCount text "。" : Nat) : Int)),
         ("all_caps_words", .int ((((pySplitWS text).filter
            (fun w => pyIsUpper w && w.length > 1)).length : Nat) : Int))]

/-- String read of a JValue where the Python code calls .lower() on it (the
analysed inputs are strings or absent, where the default applies). -/
def jStr (v : JValue) (default : String) : String :=
  match v with
  | .str s => s
  | _ => default

/-- The _extract_patterns helper from src/logger.py lines 149-161. -/
def _extract_patterns (output_result : JValue) : JValue :=
  let freq_type := jGetD output_result "freq_type" (.str "Unknown")
  let normalized_text := jStr (jGetD output_result "normalized" (.str "")) ""
  .dict [("detected_tone", freq_type),
         ("tone_markers", _extract_tone_markers freq_type normalized_text),
         ("intensity_words", _extract_intensity_words normalized_text),
         ("linguistic_features", _extract_linguistic_features normalized_text)]

/-- The analysis entry that DataLogger.log (src/logger.py lines 31-107)
constructs and appends verbatim to the JSONL log file. The timestamp is
passed in (datetime.now() is ambient state in Python); everything else is
the literal entry dictionary from the source, in insertion order. -/
def dataLogger_log_entry (timestamp : String) (input_text : String)
    (output_result : JValue) (metadata : JValue) : JValue :=
  .dict [("timestamp", .str timestamp),
         ("input", .dict [
            ("text", .str input_text),
            ("original", jGetD output_result "original" (.str input_text)),
            ("normalized", jGetD output_result "normalized" (.str input_text)),
            ("length", .int (input_text.length : Int)),
            ("char_count", .int (input_text.length : Int)),
            ("word_count", .int ((pySplitWS input_text).length : Int)),
            ("language", jGetD output_result "language"
              (.str (_detect_language input_text)))]),
         ("output", .dict [
            ("freq_type", jGetD output_result "freq_type" (.str "Unknown")),
            ("confidence", _extract_confidence output_result),
            ("scenario", jGetD (jGetD output_result "output" (.dict []))
              "scenario" (.str "unknown")),
            ("scenario_confidence", jGetD (jGetD output_result "output" (.dict []))
              "scenario_confidence" (.int 0)),
            ("mode", jGetD (jGetD output_result "output" (.dict []))
              "mode" (.str "unknown")),
            ("repaired_text", jGetD (jGetD output_result "output" (.dict []))
              "repaired_text" (.str "")),
            ("repair_strategy", jGetD (jGetD output_result "output" (.dict []))
              "repair_strategy" (.dict []))]),
         ("rhythm", _extract_rhythm output_result),
         ("patterns", _extract_patterns output_result),
         ("debug", jGetD (jGetD output_result "confidence" (.dict []))
            "debug" (.dict [])),
         ("metadata", orEmptyDict metadata),
         ("truncated", jGetD output_result "truncated" (.bool false))]

/-- Modelled from the spec: the raw-text key set named by the privacy
property (text, input_text, original, normalized, repaired_text,
raw_ai_output, llm_raw_output, llm_raw_response, prompt, messages,
completion, response_text, content). Used only to compare code behaviour
against the spec key set. -/
def RAW_TEXT_KEYS_SPEC : List String :=
  ["text", "input_text", "original", "normalized", "repaired_text",
   "raw_ai_output", "llm_raw_output", "llm_raw_response", "prompt",
   "messages", "completion", "response_text", "content"]

/-- Structural induction principle for JValue that threads membership
hypotheses through the nested lists, used for all recursive scrub proofs. -/
theorem JValue.inductionOn {motive : JValue → Prop}
    (hnull : motive .null)
    (hbool : ∀ b, motive (.bool b))
    (hint : ∀ n, motive (.int n))
    (hfloat : ∀ q, motive (.float q))
    (hstr : ∀ s, motive (.str s))
    (hlist : ∀ xs, (∀ x ∈ xs, motive x) → motive (.list xs))
    (hdict : ∀ kvs, (∀ kv ∈ kvs, motive kv.2) → motive (.dict kvs))
    (v : JValue) : motive v :=
  match v with
  | .null => hnull
  | .bool b => hbool b
  | .int n => hint n
  | .float q => hfloat q
  | .str s => hstr s
  | .list xs =>
    hlist xs (fun x _ =>
      JValue.inductionOn hnull hbool hint hfloat hstr hlist hdict x)
  | .dict kvs =>
    hdict kvs (fun kv _ =>
      JValue.inductionOn hnull hbool hint hfloat hstr hlist hdict kv.2)
termination_by sizeOf v
decreasing_by
  · rename_i hx
    have h1 := List.sizeOf_lt_of_mem hx
    simp only [JValue.list.sizeOf_spec]
    omega
  · rename_i hkv
    have h1 := List.sizeOf_lt_of_mem hkv
    obtain ⟨a, b⟩ := kv
    simp only [JValue.dict.sizeOf_spec, Prod.mk.sizeOf_spec] at *
    omega

theorem scrubList_eq_map (xs : List JValue) :
    scrubList xs = xs.map scrub_no_content_derived := by
  induction xs with
  | nil => simp [scrubList]
  | cons x xs ih => simp [scrubList, ih]

theorem scrubEntries_no_target (kvs : List (String × JValue))
    (h : ∀ kv ∈ kvs, hasScrubTargetKey (scrub_no_content_derived kv.2) = false) :
    hasScrubTargetKeyEntries (scrubEntries kvs) = false := by
  induction kvs with
  | nil => simp [scrubEntries, hasScrubTargetKeyEntries]
  | cons kv rest ih =>
    obtain ⟨k, v⟩ := kv
    by_cases hk : CONTENT_DERIVED_KEYS_LOWER.contains (lowerStrip k) = true
    · simp only [scrubEntries, hk, if_true]
      exact ih (fun kv hkv => h kv (List.mem_cons_of_mem _ hkv))
    · simp only [scrubEntries, hk, if_false, Bool.false_eq_true]
      simp only [hasScrubTargetKeyEntries, Bool.or_eq_false_iff]
      refine ⟨⟨by simpa using hk, h (k, v) (List.mem_cons_self _ _)⟩, ?_⟩
      exact ih (fun kv hkv => h kv (List.mem_cons_of_mem _ hkv))

theorem scrubList_no_target (xs : List JValue)
    (h : ∀ x ∈ xs, hasScrubTargetKey (scrub_no_content_derived x) = false) :
    hasScrubTargetKeyList (scrubList xs) = false := by
  induction xs with
  | nil => simp [scrubList, hasScrubTargetKeyList]
  | cons x xs ih =>
    simp only [scrubList, hasScrubTargetKeyList, Bool.or_eq_false_iff]
    exact ⟨h x (List.mem_cons_self _ _),
      ih (fun y hy => h y (List.mem_cons_of_mem _ hy))⟩

/-- After scrubbing, no dict at any depth retains a key whose normalised
form is in the exact code key set. -/
theorem scrub_removes_target_keys (v : JValue) :
    hasScrubTargetKey (scrub_no_content_derived v) = false := by
  induction v using JValue.inductionOn with
  | hnull => simp [scrub_no_content_derived, hasScrubTargetKey]
  | hbool b => simp [scrub_no_content_derived, hasScrubTargetKey]
  | hint n => simp [scrub_no_content_derived, hasScrubTargetKey]
  | hfloat q => simp [scrub_no_content_derived, hasScrubTargetKey]
  | hstr s => simp [scrub_no_content_derived, hasScrubTargetKey]
  | hlist xs ih =>
    simp only [scrub_no_content_derived, hasScrubTargetKey]
    exact scrubList_no_target xs ih
  | hdict kvs ih =>
    simp only [scrub_no_content_derived, hasScrubTargetKey]
    exact scrubEntries_no_target kvs ih

theorem scrubEntries_idem (kvs : List (String × JValue))
    (h : ∀ kv ∈ kvs, scrub_no_content_derived (scrub_no_content_derived kv.2)
      = scrub_no_content_derived kv.2) :
    scrubEntries (scrubEntries kvs) = scrubEntries kvs := by
  induction kvs with
  | nil => simp [scrubEntries]
  | cons kv rest ih =>
    obtain ⟨k, v⟩ := kv
    by_cases hk : CONTENT_DERIVED_KEYS_LOWER.contains (lowerStrip k) = true
    · simp only [scrubEntries, hk, if_true]
      exact ih (fun kv hkv => h kv (List.mem_cons_of_mem _ hkv))
    · simp only [scrubEntries, hk, if_false, Bool.false_eq_true]
      have hrest := ih (fun kv hkv => h kv (List.mem_cons_of_mem _ hkv))
      simp only [scrubEntries, hk, if_false, Bool.false_eq_true, hrest,
        h (k, v) (List.mem_cons_self _ _)]

theorem scrubList_idem (xs : List JValue)
    (h : ∀ x ∈ xs, scrub_no_content_derived (scrub_no_content_derived x)
      = scrub_no_content_derived x) :
    scrubList (scrubList xs) = scrubList xs := by
  induction xs with
  | nil => simp [scrubList]
  | cons x xs ih =>
    simp only [scrubList, h x (List.mem_cons_self _ _),
      ih (fun y hy => h y (List.mem_cons_of_mem _ hy))]

/-- Scrubbing twice equals scrubbing once. -/
theorem scrub_idempotent (v : JValue) :
    scrub_no_content_derived (scrub_no_content_derived v)
      = scrub_no_content_derived v := by
  induction v using JValue.inductionOn with
  | hnull => rfl
  | hbool b => rfl
  | hint n => rfl
  | hfloat q => rfl
  | hstr s => rfl
  | hlist xs ih =>
    simp only [scrub_no_content_derived]
    exact congrArg JValue.list (scrubList_idem xs ih)
  | hdict kvs ih =>
    simp only [scrub_no_content_derived]
    exact congrArg JValue.dict (scrubEntries_idem kvs ih)

theorem scrubEntries_keep (k : String) (v : JValue)
    (rest : List (String × JValue))
    (h : lowerStrip k ∉ CONTENT_DERIVED_KEYS_LOWER) :
    scrubEntries ((k, v) :: rest)
      = (k, scrub_no_content_derived v) :: scrubEntries rest := by
  simp [scrubEntries, h]

theorem scrubEntries_drop (k : String) (v : JValue)
    (rest : List (String × JValue))
    (h : lowerStrip k ∈ CONTENT_DERIVED_KEYS_LOWER) :
    scrubEntries ((k, v) :: rest) = scrubEntries rest := by
  simp [scrubEntries, h]

/-- The dict branch of scrub_no_content_derived as an equation usable for
rewriting without unfolding the mutual definition. -/
theorem scrub_dict_eq (kvs : List (String × JValue)) :
    scrub_no_content_derived (.dict kvs) = .dict (scrubEntries kvs) := by
  simp [scrub_no_content_derived]

theorem scrub_list_eq (xs : List JValue) :
    scrub_no_content_derived (.list xs) = .list (scrubList xs) := by
  simp [scrub_no_content_derived]

theorem scrub_str_eq (s : String) :
    scrub_no_content_derived (.str s) = .str s := by
  simp [scrub_no_content_derived]

theorem scrubList_length (xs : List JValue) :
    (scrubList xs).length = xs.length := by
  rw [scrubList_eq_map]; exact List.length_map _ _

theorem scrubEntries_keys (kvs : List (String × JValue)) :
    (scrubEntries kvs).map Prod.fst
      = ((kvs.filter
          (fun kv => !(CONTENT_DERIVED_KEYS_LOWER.contains (lowerStrip kv.1)))).map
            Prod.fst) := by
  induction kvs with
  | nil => simp [scrubEntries]
  | cons kv rest ih =>
    obtain ⟨k, v⟩ := kv
    by_cases hk : lowerStrip k ∈ CONTENT_DERIVED_KEYS_LOWER
    · rw [scrubEntries_drop k v rest hk]
      simp [List.filter_cons, hk, ih]
    · rw [scrubEntries_keep k v rest hk]
      simp only [List.map_cons, ih, List.filter_cons]
      simp [hk]

theorem foldl_min_mem : ∀ (vs : List Int) (v : Int), vs.foldl min v ∈ v :: vs := by
  intro vs
  induction vs with
  | nil => intro v; simp
  | cons w ws ih =>
    intro v
    have h2 := ih (min v w)
    rcases min_choice v w with hm | hm <;>
      simp only [List.foldl_cons] <;> rw [hm] at h2 ⊢ <;>
      rcases List.mem_cons.mp h2 with h3 | h3 <;> simp [h3]

theorem foldl_min_le : ∀ (vs : List Int) (v x : Int), x ∈ v :: vs → vs.foldl min v ≤ x := by
  intro vs
  induction vs with
  | nil =>
    intro v x hx
    simp at hx
    simp [hx]
  | cons w ws ih =>
    intro v x hx
    simp only [List.foldl_cons]
    rcases List.mem_cons.mp hx with h | h
    · rw [h]
      exact le_trans (ih (min v w) (min v w) (List.mem_cons_self _ _)) (min_le_left _ _)
    · rcases List.mem_cons.mp h with h2 | h2
      · rw [h2]
        exact le_trans (ih (min v w) (min v w) (List.mem_cons_self _ _)) (min_le_right _ _)
      · exact ih (min v w) x (List.mem_cons_of_mem _ h2)

theorem foldl_max_mem : ∀ (vs : List Int) (v : Int), vs.foldl max v ∈ v :: vs := by
  intro vs
  induction vs with
  | nil => intro v; simp
  | cons w ws ih =>
    intro v
    have h2 := ih (max v w)
    rcases max_choice v w with hm | hm <;>
      simp only [List.foldl_cons] <;> rw [hm] at h2 ⊢ <;>
      rcases List.mem_cons.mp h2 with h3 | h3 <;> simp [h3]

theorem foldl_max_ge : ∀ (vs : List Int) (v x : Int), x ∈ v :: vs → x ≤ vs.foldl max v := by
  intro vs
  induction vs with
  | nil =>
    intro v x hx
    simp at hx
    simp [hx]
  | cons w ws ih =>
    intro v x hx
    simp only [List.foldl_cons]
    rcases List.mem_cons.mp hx with h | h
    · rw [h]
      exact le_trans (le_max_left _ _) (ih (max v w) (max v w) (List.mem_cons_self _ _))
    · rcases List.mem_cons.mp h with h2 | h2
      · rw [h2]
        exact le_trans (le_max_right _ _) (ih (max v w) (max v w) (List.mem_cons_self _ _))
      · exact ih (max v w) x (List.mem_cons_of_mem _ h2)

theorem insertSorted_length (x : Int) (l : List Int) :
    (insertSorted x l).length = l.length + 1 := by
  induction l with
  | nil => rfl
  | cons y ys ih =>
    by_cases h : x ≤ y <;> simp [insertSorted, h, ih]

theorem pySorted_length (l : List Int) : (pySorted l).length = l.length := by
  unfold pySorted
  induction l with
  | nil => rfl
  | cons x xs ih => simp [List.foldr_cons, insertSorted_length, ih]

theorem _percentile_interp (l : List Int) (p : ℚ) (hne : l ≠ []) (h0 : 0 < p)
    (h100 : p < 100) :
    _percentile l p = some (interpAt (pySorted l) (percentileIndex l p)) := by
  match l with
  | v :: vs =>
    rw [_percentile]
    rw [if_neg (by exact not_le.mpr h0), if_neg (by exact not_le.mpr h100)]
    have hlen : ((pySorted (v :: vs)).length : ℚ) = ((v :: vs).length : ℚ) := by
      rw [pySorted_length]
    simp only [hlen]
    set k : ℚ := (((v :: vs).length : ℚ) - 1) * (p / 100) with hk
    have hkdef : percentileIndex (v :: vs) p = k := rfl
    rw [hkdef]
    set sv := pySorted (v :: vs) with hsv
    by_cases hfc : (⌊k⌋ : ℤ) = ⌈k⌉
    · rw [if_pos hfc]
      have hkf : k = (⌊k⌋ : ℚ) := by
        have h1 := Int.floor_le k
        have h2 := Int.le_ceil k
        rw [← hfc] at h2
        exact le_antisymm h2 h1
      simp only [Option.some.injEq]
      unfold interpAt
      rw [← hkf]
      ring
    · rw [if_neg hfc]
      have hc1 : (⌈k⌉ : ℤ) = ⌊k⌋ + 1 := by
        have h1 := Int.floor_le_ceil k
        have h2 := Int.ceil_le_floor_add_one k
        omega
      simp only [Option.some.injEq]
      unfold interpAt
      have hc1q : ((⌈k⌉ : ℤ) : ℚ) = ((⌊k⌋ : ℤ) : ℚ) + 1 := by exact_mod_cast hc1
      rw [hc1q]
      ring

theorem isInstDict_asDictJ (v : JValue) : isInstDict (asDictJ v) = true := by
  cases v <;> rfl

theorem optBool_type_ok (x : Option Bool) :
    (!(isNull (jOfOptBool x)) && !(isInstBool (jOfOptBool x))) = false := by
  cases x <;> rfl

theorem validate_build_entries (req_text : String)
    (repaired_text freq_type mode scenario : JValue)
    (confidence_final confidence_classifier : JValue)
    (metrics audit_top : JValue) (llm_used cache_hit : Option Bool)
    (model_name usage output_source pipeline_version_fingerprint : JValue) :
    validate_evidence_v1 (.dict (build_evidence_entries req_text repaired_text
      freq_type mode scenario confidence_final confidence_classifier metrics
      audit_top llm_used cache_hit model_name usage output_source
      pipeline_version_fingerprint)) = (true, []) := by
  simp only [build_evidence_entries, validate_evidence_v1,
    EVIDENCE_REQUIRED_TOP_KEYS, EVIDENCE_REQUIRED_CONFIDENCE_KEYS,
    jHasKey, jGetEntries, List.filter, List.any, List.find?, List.map,
    isInstInt, isNull, isInstBool, isInstDict]
  simp
  refine ⟨?_, ?_, ?_, ?_, ?_⟩
  · cases llm_used <;> simp [jOfOptBool]
  · cases cache_hit <;> simp [jOfOptBool]
  · cases usage <;> simp [asDictJ]
  · cases audit_top <;> simp [asDictJ, scrub_dict_eq]
  · cases metrics <;> simp [asDictJ, scrub_dict_eq]

theorem build_evidence_v1_schema_valid (req_text : String)
    (repaired_text freq_type mode scenario : JValue)
    (confidence_final confidence_classifier : JValue)
    (metrics audit_top : JValue) (llm_used cache_hit : Option Bool)
    (model_name usage output_source pipeline_version_fingerprint : JValue) :
    jGet (build_evidence_v1 req_text repaired_text freq_type mode scenario
      confidence_final confidence_classifier metrics audit_top llm_used
      cache_hit model_name usage output_source pipeline_version_fingerprint)
      "schema_valid" = some (.bool true)
    ∧ jHasKeyJ (build_evidence_v1 req_text repaired_text freq_type mode
      scenario confidence_final confidence_classifier metrics audit_top
      llm_used cache_hit model_name usage output_source
      pipeline_version_fingerprint) "schema_errors" = false := by
  unfold build_evidence_v1 finalize_evidence
  rw [validate_build_entries]
  simp only [if_true]
  constructor
  · simp [jGet, jGetEntries, build_evidence_entries]
  · simp [jHasKeyJ, jHasKey, build_evidence_entries]

theorem validate_missing_classifier (kvs conf : List (String × JValue))
    (h1 : jGetEntries kvs "confidence" = some (.dict conf))
    (h2 : jHasKey conf "classifier" = false) :
    (validate_evidence_v1 (.dict kvs)).1 = false
    ∧ "missing:confidence.classifier" ∈ (validate_evidence_v1 (.dict kvs)).2
    ∧ finalize_evidence kvs
      = .dict (kvs ++ [("schema_valid", .bool false),
        ("schema_errors", .list ((validate_evidence_v1 (.dict kvs)).2.map JValue.str))]) := by
  have hmem : "missing:confidence.classifier" ∈ (validate_evidence_v1 (.dict kvs)).2 := by
    simp only [validate_evidence_v1, h1, Option.getD_some]
    rw [List.mem_append]
    left
    rw [List.mem_append]
    right
    simp [EVIDENCE_REQUIRED_CONFIDENCE_KEYS, List.filter, h2]
    cases hfk : jHasKey conf "final" <;>
      exact ⟨"classifier", by simp, rfl⟩
  have hfst : (validate_evidence_v1 (.dict kvs)).1 = false := by
    have hne := List.ne_nil_of_mem hmem
    rcases hv : validate_evidence_v1 (.dict kvs) with ⟨b, errs⟩
    rw [hv] at hne
    simp only at hne ⊢
    have hb : b = errs.isEmpty := by
      have : (validate_evidence_v1 (.dict kvs)).1
          = (validate_evidence_v1 (.dict kvs)).2.isEmpty := by
        simp only [validate_evidence_v1]
      rw [hv] at this
      simpa using this
    rw [hb]
    simpa [List.isEmpty_iff] using hne
  refine ⟨hfst, hmem, ?_⟩
  simp [finalize_evidence, hfst]

theorem scrub_int_eq (n : Int) :
    scrub_no_content_derived (.int n) = .int n := by
  simp [scrub_no_content_derived]

theorem scrubList_replicate_int (n : Nat) :
    scrubList (List.replicate n (.int 0)) = List.replicate n (.int 0) := by
  induction n with
  | zero => simp [List.replicate, scrubList]
  | succ m ih => simp [List.replicate, scrubList, scrub_int_eq, ih]

theorem watchdog_degrade_step_id (h v : Bool) :
    _license_watchdog_step "degrade" h v = h := by
  cases v <;> simp [_license_watchdog_step]

theorem watchdog_degrade_never_halts (h : Bool) (obs : List Bool) :
    run_watchdog "degrade" h obs = h := by
  induction obs generalizing h with
  | nil => rfl
  | cons o os ih =>
    simp only [run_watchdog, List.foldl_cons]
    rw [show _license_watchdog_step "degrade" h o = h from watchdog_degrade_step_id h o]
    exact ih h

theorem watchdog_stop_step_sticky (v : Bool) :
    _license_watchdog_step "stop" true v = true := by
  cases v <;> rfl

theorem watchdog_stop_halt_sticky (obs : List Bool) :
    run_watchdog "stop" true obs = true := by
  induction obs with
  | nil => rfl
  | cons o os ih =>
    simp only [run_watchdog, List.foldl_cons] at ih ⊢
    rw [watchdog_stop_step_sticky o]
    exact ih

/-- Claim C1, counterexample: scrub_no_content_derived retains the key
content, which the spec places in the raw-text set, and likewise retains
the naming variant triggerWordsList, because its removal test is exact
membership in CONTENT_DERIVED_KEYS_LOWER, not a substring heuristic. -/
theorem C1_counterexample :
    scrub_no_content_derived (.dict [("content", .str "verbatim user text")])
      = .dict [("content", .str "verbatim user text")]
    ∧ "content" ∈ RAW_TEXT_KEYS_SPEC
    ∧ scrub_no_content_derived
        (.dict [("triggerWordsList", .list [.str "secret phrase"])])
      = .dict [("triggerWordsList", .list [.str "secret phrase"])] := by
  refine ⟨?_, by decide, ?_⟩
  · rw [scrub_dict_eq, scrubEntries_keep _ _ _ (by decide)]
    simp [scrubEntries, scrub_str_eq]
  · rw [scrub_dict_eq, scrubEntries_keep _ _ _ (by decide)]
    simp [scrubEntries, scrub_list_eq, scrubList, scrub_str_eq]

/-- Claim C1 as amended: at every nesting depth, the scrub output contains
no key whose stripped lower-cased form belongs to the exact code key set
CONTENT_DERIVED_KEYS_LOWER (so casing and surrounding-whitespace variants
of those keys are removed); keys outside that set, including content and
substring naming variants such as triggerWordsList, are retained. -/
theorem C1_amended_scrub_output_clean (v : JValue) :
    hasScrubTargetKey (scrub_no_content_derived v) = false :=
  scrub_removes_target_keys v

/-- Claim C2: the entry persisted by DataLogger.log stores the raw input
verbatim under the raw-text keys text, original and normalized of its
input section, contradicting the no-raw-text property (code bug relative
to the documented contract). Failing input: input_text equal to
hello world, output_result the empty dict. -/
theorem C2_log_entry_contains_raw_text :
    jGetD (jGetD (dataLogger_log_entry "2025-01-01T00:00:00" "hello world"
        (.dict []) .null) "input" .null) "text" .null = .str "hello world"
    ∧ jGetD (jGetD (dataLogger_log_entry "2025-01-01T00:00:00" "hello world"
        (.dict []) .null) "input" .null) "original" .null = .str "hello world"
    ∧ jGetD (jGetD (dataLogger_log_entry "2025-01-01T00:00:00" "hello world"
        (.dict []) .null) "input" .null) "normalized" .null = .str "hello world"
    ∧ "text" ∈ RAW_TEXT_KEYS_SPEC ∧ "original" ∈ RAW_TEXT_KEYS_SPEC
    ∧ "normalized" ∈ RAW_TEXT_KEYS_SPEC :=
  ⟨rfl, rfl, rfl, by decide, by decide, by decide⟩

/-- Claim C3, counterexample: with enforcement mode degrade, a watchdog
cycle that observes an invalid status leaves the halt flag down, yet the
synchronous pre-request check in analyze still rejects the request with a
402 license_invalid error instead of serving it. -/
theorem C3_counterexample :
    _license_watchdog_step "degrade" false false = false
    ∧ analyze_license_gate false false "license_not_checked"
      = some (402, "license_invalid:license_not_checked") :=
  ⟨rfl, rfl⟩

/-- Claim C3 as amended: in degrade mode the watchdog never sets the halt
flag (so no 503 halting occurs), but the analyze admission gate rejects
every request whose synchronous license check reports invalid with a 402
license_invalid error; requests are served only when that check reports
valid. -/
theorem C3_amended_degrade_rejects_402 (h : Bool) (obs : List Bool) (r : String) :
    run_watchdog "degrade" h obs = h
    ∧ analyze_license_gate false false r = some (402, "license_invalid:" ++ r)
    ∧ analyze_license_gate false true r = none :=
  ⟨watchdog_degrade_never_halts h obs, rfl, rfl⟩

/-- Claim C4, counterexample: in stop mode, after the watchdog observes an
invalid status and then a valid one, the halt flag is still set and a
request arriving with a currently valid license status is still rejected
with 503; the flag is never cleared, so requests do not resume. -/
theorem C4_counterexample :
    run_watchdog "stop" false [false, true] = true
    ∧ analyze_license_gate (run_watchdog "stop" false [false, true]) true
        "license_ok"
      = some (503, "service_halted_by_license:license_ok") :=
  ⟨rfl, rfl⟩

/-- Claim C4 as amended: in stop mode an invalid observation sets the halt
flag, every request arriving while the flag is set is rejected with 503
before the decision engine runs (the gate precedes the pipeline call in
analyze) regardless of the current validity, and no sequence of later
watchdog observations, valid ones included, ever clears the flag, so
requests resume only on process restart. -/
theorem C4_amended_halt_is_permanent (h v : Bool) (r : String) (obs : List Bool) :
    _license_watchdog_step "stop" h false = true
    ∧ run_watchdog "stop" true obs = true
    ∧ analyze_license_gate true v r = some (503, "service_halted_by_license:" ++ r) := by
  refine ⟨by cases h <;> rfl, watchdog_stop_halt_sticky obs, rfl⟩

/-- Claim C5, counterexample: at mode Block (capitalised), freqType X,
scenario empty, none of the claim conditions for BLOCK hold (freqType is
not OutOfScope, the scenario contains neither substring, and the mode
string equals neither no-op nor block), so the claim predicts GUIDE; the
code lower-cases the mode first and returns BLOCK. -/
theorem C5_counterexample :
    _decision_state_from_truth "Block" "X" "" = "BLOCK"
    ∧ ("Block" : String) ≠ "no-op" ∧ ("Block" : String) ≠ "block"
    ∧ ("X" : String) ≠ "OutOfScope"
    ∧ pyIn "out_of_scope" "" = false ∧ pyIn "crisis" "" = false := by
  refine ⟨by decide, by decide, by decide, by decide, rfl, rfl⟩

/-- Claim C5 as amended: the mode comparison is applied to the
whitespace-stripped lower-cased mode string (and the scenario substring
test to the stripped lower-cased scenario). With that normalisation the
priority order is as claimed: OutOfScope freq_type forces BLOCK, an
out_of_scope or crisis substring in the scenario forces BLOCK, and
otherwise the normalised mode maps no-op to ALLOW, block to BLOCK and
anything else to GUIDE; the four concrete examples of the claim hold. -/
theorem C5_amended_normalizer (mode freq_type scenario : String) :
    (freq_type = "OutOfScope"
      → _decision_state_from_truth mode freq_type scenario = "BLOCK")
    ∧ ((pyIn "out_of_scope" (lowerStrip scenario)
        || pyIn "crisis" (lowerStrip scenario)) = true
      → _decision_state_from_truth mode freq_type scenario = "BLOCK")
    ∧ (freq_type ≠ "OutOfScope"
      → (pyIn "out_of_scope" (lowerStrip scenario)
          || pyIn "crisis" (lowerStrip scenario)) = false
      → _decision_state_from_truth mode freq_type scenario
          = _decision_from_mode mode)
    ∧ (lowerStrip mode = "no-op" → _decision_from_mode mode = "ALLOW")
    ∧ (lowerStrip mode = "block" → _decision_from_mode mode = "BLOCK")
    ∧ (lowerStrip mode ≠ "no-op" → lowerStrip mode ≠ "block"
      → _decision_from_mode mode = "GUIDE")
    ∧ _decision_state_from_truth "no-op" "Anything" "" = "ALLOW"
    ∧ _decision_state_from_truth "anything" "OutOfScope" "" = "BLOCK"
    ∧ _decision_state_from_truth "guide" "X" "contains crisis language" = "BLOCK"
    ∧ _decision_state_from_truth "block" "X" "" = "BLOCK" := by
  refine ⟨?_, ?_, ?_, ?_, ?_, ?_, by decide, by decide, by decide, by decide⟩
  · intro h
    simp [_decision_state_from_truth, h]
  · intro h
    by_cases hf : freq_type = "OutOfScope"
    · simp [_decision_state_from_truth, hf]
    · simp [_decision_state_from_truth, hf, h]
  · intro hf h
    simp [_decision_state_from_truth, hf, h]
  · intro h
    simp [_decision_from_mode, h]
  · intro h
    simp [_decision_from_mode, h]
  · intro h1 h2
    simp [_decision_from_mode, h1, h2]

/-- Claim C5 witness: the amended normaliser applied to the concrete
crisis-scenario example. -/
theorem C5_amended_normalizer_witness :
    _decision_state_from_truth "guide" "X" "contains crisis language" = "BLOCK" :=
  (C5_amended_normalizer "guide" "X" "contains crisis language").2.1 (by decide)

/-- Claim C6: scrub_no_content_derived is idempotent on every nested
JSON-like value. -/
theorem C6_scrub_idempotent (x : JValue) :
    scrub_no_content_derived (scrub_no_content_derived x)
      = scrub_no_content_derived x :=
  scrub_idempotent x

/-- Claim C7, counterexample: a list of 81 items stored under the
non-signal key items exceeds the claimed 80-item cap, yet scrub passes it
through at full size instead of truncating it; the code has no size caps
at all. -/
theorem C7_counterexample :
    scrub_no_content_derived
        (.dict [("items", .list (List.replicate 81 (.int 0)))])
      = .dict [("items", .list (List.replicate 81 (.int 0)))]
    ∧ 80 < (List.replicate 81 (JValue.int 0)).length := by
  constructor
  · rw [scrub_dict_eq, scrubEntries_keep _ _ _ (by decide)]
    rw [scrub_list_eq, scrubList_replicate_int]
    simp [scrubEntries]
  · simp

/-- Claim C7 as amended: scrub applies no size-based truncation or
dropping whatsoever. Lists are rebuilt element-wise at their full length,
strings of any length pass through unchanged, and a dict entry is removed
exactly when its normalised key is in CONTENT_DERIVED_KEYS_LOWER,
irrespective of the size of its value. -/
theorem C7_amended_no_size_caps :
    (∀ xs : List JValue,
      scrub_no_content_derived (.list xs) = .list (scrubList xs)
      ∧ (scrubList xs).length = xs.length)
    ∧ (∀ s : String, scrub_no_content_derived (.str s) = .str s)
    ∧ (∀ kvs : List (String × JValue),
      (scrubEntries kvs).map Prod.fst
        = (kvs.filter (fun kv =>
            !(CONTENT_DERIVED_KEYS_LOWER.contains (lowerStrip kv.1)))).map
              Prod.fst) :=
  ⟨fun xs => ⟨scrub_list_eq xs, scrubList_length xs⟩,
   scrub_str_eq,
   scrubEntries_keys⟩

/-- Claim C8: validating an evidence record whose confidence dict lacks
the classifier key yields a false verdict with schema_errors containing
missing:confidence.classifier, and the construction tail still returns the
full record, extended with schema_valid false and the error list, without
failing. -/
theorem C8_missing_classifier_flagged (kvs conf : List (String × JValue))
    (h1 : jGetEntries kvs "confidence" = some (.dict conf))
    (h2 : jHasKey conf "classifier" = false) :
    (validate_evidence_v1 (.dict kvs)).1 = false
    ∧ "missing:confidence.classifier" ∈ (validate_evidence_v1 (.dict kvs)).2
    ∧ finalize_evidence kvs
      = .dict (kvs ++ [("schema_valid", .bool false),
        ("schema_errors",
          .list ((validate_evidence_v1 (.dict kvs)).2.map JValue.str))]) :=
  validate_missing_classifier kvs conf h1 h2

/-- Claim C8 witness: the flagged validation at a concrete record whose
confidence dict carries only the final key. -/
theorem C8_missing_classifier_flagged_witness :
    (validate_evidence_v1
        (.dict [("confidence", .dict [("final", JValue.float 0)])])).1 = false
    ∧ "missing:confidence.classifier"
      ∈ (validate_evidence_v1
          (.dict [("confidence", .dict [("final", JValue.float 0)])])).2 :=
  ⟨(C8_missing_classifier_flagged [("confidence", .dict [("final", JValue.float 0)])]
      [("final", JValue.float 0)] rfl rfl).1,
   (C8_missing_classifier_flagged [("confidence", .dict [("final", JValue.float 0)])]
      [("final", JValue.float 0)] rfl rfl).2.1⟩

/-- Claim C9: the percentile function returns none on the empty sample
list; on a nonempty list it returns the minimum for p at most 0 and the
maximum for p at least 100; in the interior it returns the linear
interpolation between the two order statistics bounding the fractional
index; and the three concrete examples of the spec hold. -/
theorem C9_percentile_spec :
    (∀ p : ℚ, _percentile [] p = none)
    ∧ (∀ (l : List Int) (p : ℚ), l ≠ [] → p ≤ 0 →
        ∃ m : Int, _percentile l p = some (m : ℚ) ∧ m ∈ l ∧ ∀ x ∈ l, m ≤ x)
    ∧ (∀ (l : List Int) (p : ℚ), l ≠ [] → 100 ≤ p →
        ∃ m : Int, _percentile l p = some (m : ℚ) ∧ m ∈ l ∧ ∀ x ∈ l, x ≤ m)
    ∧ (∀ (l : List Int) (p : ℚ), l ≠ [] → 0 < p → p < 100 →
        _percentile l p = some (interpAt (pySorted l) (percentileIndex l p)))
    ∧ _percentile [10, 20, 30, 40, 100] 50 = some 30
    ∧ _percentile [5] 0 = some 5
    ∧ _percentile [5] 100 = some 5 := by
  refine ⟨fun p => rfl, ?_, ?_, ?_, ?_, by simp [_percentile], by simp [_percentile]⟩
  · intro l p hne hp
    match l with
    | v :: vs =>
      refine ⟨vs.foldl min v, ?_, foldl_min_mem vs v, foldl_min_le vs v⟩
      rw [_percentile, if_pos hp]
  · intro l p hne hp
    match l with
    | v :: vs =>
      refine ⟨vs.foldl max v, ?_, foldl_max_mem vs v, foldl_max_ge vs v⟩
      rw [_percentile, if_neg (by linarith), if_pos hp]
  · exact _percentile_interp
  · have hs : pySorted [10, 20, 30, 40, 100] = [10, 20, 30, 40, 100] := by decide
    simp only [_percentile, hs]
    norm_num
    decide

/-- Claim C9 witness: the interior interpolation branch at the concrete
sample [10, 20] with p = 50, whose fractional index one half interpolates
to 15. -/
theorem C9_percentile_spec_witness : _percentile [10, 20] 50 = some 15 := by
  have h := C9_percentile_spec.2.2.2.1 [10, 20] 50 (by decide) (by decide) (by decide)
  rw [h]
  have hs : pySorted [10, 20] = [10, 20] := by decide
  rw [hs]
  have hk : percentileIndex [10, 20] 50 = 1 / 2 := by
    simp [percentileIndex]
    norm_num
  rw [hk]
  simp only [interpAt]
  have hc : ⌈(1 : ℚ) / 2⌉ = (1 : ℤ) := by
    norm_num [Int.ceil_eq_iff]
  have hf : ⌊(1 : ℚ) / 2⌋ = (0 : ℤ) := by
    norm_num [Int.floor_eq_iff]
  rw [hc, hf]
  norm_num

/-- Claim C10: for every combination of inputs (any request text, any
repaired text including null, freq_type, mode, scenario, confidence,
metrics, audit and usage values of any runtime type, llm_used and
cache_hit of their declared Optional[bool] type), the record returned by
build_evidence_v1 passes its own schema validation: it carries
schema_valid true and no schema_errors key, so the invalid branch is
unreachable on records it constructs itself. -/
theorem C10_build_evidence_always_schema_valid (req_text : String)
    (repaired_text freq_type mode scenario : JValue)
    (confidence_final confidence_classifier : JValue)
    (metrics audit_top : JValue) (llm_used cache_hit : Option Bool)
    (model_name usage output_source pipeline_version_fingerprint : JValue) :
    jGet (build_evidence_v1 req_text repaired_text freq_type mode scenario
      confidence_final confidence_classifier metrics audit_top llm_used
      cache_hit model_name usage output_source pipeline_version_fingerprint)
      "schema_valid" = some (.bool true)
    ∧ jHasKeyJ (build_evidence_v1 req_text repaired_text freq_type mode
      scenario confidence_final confidence_classifier metrics audit_top
      llm_used cache_hit model_name usage output_source
      pipeline_version_fingerprint) "schema_errors" = false :=
  build_evidence_v1_schema_valid req_text repaired_text freq_type mode
    scenario confidence_final confidence_classifier metrics audit_top
    llm_used cache_hit model_name usage output_source
    pipeline_version_fingerprint
